import Mathlib

/-!
Shallow embedding of the BeagleLogic kernel driver core
(src/kernel/beaglelogic.c together with src/kernel/beaglelogic.h).

Machine integers are modelled as Nat (all comparisons in the embedded
code paths are on small enum values, so no wraparound is involved) and
error returns are the negated errno values used by the driver.  Kernel
and hardware primitives that may fail or block, such as dma_alloc_coherent,
devm_kzalloc, copy_to_user and the wait queues, are modelled by explicit
Bool or outcome parameters so that every path of an embedded function
corresponds to one path of the C function it is a translation of.
The circular buffer list is embedded as a Lean list indexed by position;
each buffer keeps the index stored in its next field, mirroring the
pointer written by the allocation loop.
-/

namespace BeagleLogic

/-! Device states, from enum beaglelogic_states in beaglelogic.h. -/

def STATE_BL_DISABLED : Nat := 0

def STATE_BL_INITIALIZED : Nat := 1

def STATE_BL_MEMALLOCD : Nat := 2

def STATE_BL_ARMED : Nat := 3

def STATE_BL_RUNNING : Nat := 4

def STATE_BL_REQUEST_STOP : Nat := 5

def STATE_BL_ERROR : Nat := 6

/-! Buffer states, from enum bufstates in beaglelogic.c. -/

def STATE_BL_BUF_ALLOC : Nat := 0

def STATE_BL_BUF_MAPPED : Nat := 1

def STATE_BL_BUF_UNMAPPED : Nat := 2

def STATE_BL_BUF_DROPPED : Nat := 3

/-! Trigger flags, from enum beaglelogic_triggerflags in beaglelogic.h. -/

def BL_TRIGGERFLAGS_ONESHOT : Nat := 0

def BL_TRIGGERFLAGS_CONTINUOUS : Nat := 1

/-- One element of struct logic_buffer.  hasBuf models whether the buf
pointer is non-NULL, physAddr the dma_addr_t (0 standing for NULL), and
next stores the array index of the circularly linked successor, the
shallow form of the next pointer written by beaglelogic_memalloc. -/
structure LogicBuffer where
  hasBuf : Bool
  physAddr : Nat
  size : Nat
  state : Nat
  index : Nat
  next : Nat
deriving Repr, DecidableEq

instance : Inhabited LogicBuffer := ⟨⟨false, 0, 0, 0, 0, 0⟩⟩

/-- The fields of struct beaglelogicdev that the embedded operations
touch.  buffers = none models a NULL buffers pointer; mutexLocked models
whether the per-device session mutex is currently held; stopFlag models
the stop_flag word at offset 0x18 of the PRU0 context. -/
structure BLDev where
  buffers : Option (List LogicBuffer)
  bufcount : Nat
  bufbeingread : Nat
  bufunitsize : Nat
  maxbufcount : Nat
  samplerate : Nat
  coreclockfreq : Nat
  triggerflags : Nat
  sampleunit : Nat
  state : Nat
  lasterror : Nat
  mutexLocked : Bool
  stopFlag : Bool
deriving Repr, DecidableEq

/-- Per-open-file reader state, struct logic_buffer_reader.  buf = none
models a NULL current-buffer pointer, some i the address of buffers[i]. -/
structure Reader where
  buf : Option Nat
  pos : Nat
  remaining : Nat
deriving Repr, DecidableEq

/-- The buffers array, with NULL read as the empty list. -/
def BLDev.ring (d : BLDev) : List LogicBuffer := d.buffers.getD []

/-- Read bldev.buffers[i]. -/
def BLDev.getBuf (d : BLDev) (i : Nat) : LogicBuffer := d.ring.getD i default

/-- Write bldev.buffers[i]. -/
def BLDev.setBuf (d : BLDev) (i : Nat) (b : LogicBuffer) : BLDev :=
  { d with buffers := some (d.ring.set i b) }

/-! Small list facts used to reason about ring updates. -/

theorem getD_set_self (l : List LogicBuffer) (i : Nat) (b dflt : LogicBuffer)
    (h : i < l.length) : (l.set i b).getD i dflt = b := by
  induction l generalizing i with
  | nil => simp at h
  | cons x xs ih =>
    cases i with
    | zero => simp [List.set, List.getD]
    | succ n =>
      simp only [List.set, List.getD_cons_succ]
      exact ih n (by simpa using h)

theorem getD_set_ne (l : List LogicBuffer) (i j : Nat) (b dflt : LogicBuffer)
    (h : i ≠ j) : (l.set i b).getD j dflt = l.getD j dflt := by
  induction l generalizing i j with
  | nil => simp [List.set]
  | cons x xs ih =>
    cases i with
    | zero =>
      cases j with
      | zero => exact absurd rfl h
      | succ m => simp [List.set, List.getD]
    | succ n =>
      cases j with
      | zero => simp [List.set, List.getD]
      | succ m =>
        simp only [List.set, List.getD_cons_succ]
        exact ih n m (by omega)

theorem getD_map_range (f : Nat → LogicBuffer) (n i : Nat) (h : i < n)
    (dflt : LogicBuffer) : (((List.range n).map f).getD i dflt) = f i := by
  simp [List.getD, List.getElem?_map, List.getElem?_range h]

theorem length_set_eq (l : List LogicBuffer) (i : Nat) (b : LogicBuffer) :
    (l.set i b).length = l.length := by
  simp

/-! Buffer map and unmap, from beaglelogic.c lines 470 to 511.
beaglelogic_map_buffer only verifies the buffer: it returns 0 when the
state is already MAPPED or the physical address is nonzero, and -EINVAL
otherwise; it never writes the buffer (the source comment reads: state
is managed by the IRQ handler, do not modify state here).
beaglelogic_unmap_buffer sets the state to UNMAPPED. -/

def beaglelogic_map_buffer (b : LogicBuffer) : Int :=
  if b.state = STATE_BL_BUF_MAPPED then 0
  else if b.physAddr ≠ 0 then 0
  else -22

def beaglelogic_unmap_buffer (b : LogicBuffer) : LogicBuffer :=
  { b with state := STATE_BL_BUF_UNMAPPED }

/-- The two interrupt sources: from_bl_irq_1 (buffer ready) and
from_bl_irq_2 (capture complete). -/
inductive IrqSource where
  | bufReady
  | captureComplete
deriving Repr, DecidableEq

/-- beaglelogic_serve_irq, beaglelogic.c lines 771 to 821.  The bufReady
branch stores the write cursor into lastbufready (not modelled as a
separate field since the driver never reads it back), unmaps it, and,
unless the session is oneshot and the next buffer has index 0, advances
bufbeingread to the next buffer and calls beaglelogic_map_buffer on it,
which only verifies it.  The captureComplete branch is a no-op for
state at most ARMED, an error transition for a state that is neither
RUNNING nor REQUEST_STOP, and otherwise moves the state to INITIALIZED,
additionally unlocking the session mutex in oneshot mode when the saved
state has the RUNNING bit set (the source tests state with a bitwise
and against STATE_BL_RUNNING). -/
def beaglelogic_serve_irq (irq : IrqSource) (d : BLDev) : BLDev :=
  match irq with
  | .bufReady =>
    let i := d.bufbeingread
    let d1 := d.setBuf i (beaglelogic_unmap_buffer (d.getBuf i))
    let nxt := (d1.getBuf i).next
    if d1.triggerflags ≠ BL_TRIGGERFLAGS_ONESHOT ∨ (d1.getBuf nxt).index ≠ 0 then
      let d2 := { d1 with bufbeingread := nxt }
      let _ := beaglelogic_map_buffer (d2.getBuf nxt)
      d2
    else d1
  | .captureComplete =>
    let st := d.state
    if st ≤ STATE_BL_ARMED then d
    else if st ≠ STATE_BL_REQUEST_STOP ∧ st ≠ STATE_BL_RUNNING then
      { d with state := STATE_BL_ERROR }
    else
      let d1 := { d with state := STATE_BL_INITIALIZED }
      if d1.triggerflags = BL_TRIGGERFLAGS_ONESHOT ∧ st &&& STATE_BL_RUNNING ≠ 0 then
        { d1 with mutexLocked := false }
      else d1

/-- beaglelogic_request_stop, beaglelogic.c lines 727 to 758: writes 1
to the stop_flag word of the shared context and returns immediately. -/
def beaglelogic_request_stop (d : BLDev) : BLDev := { d with stopFlag := true }

/-- Outcome of the interruptible timed wait inside beaglelogic_stop:
completed models a positive return (the completion interrupt set the
state to INITIALIZED while waiting), timeout models a zero return with
the success of the two subsequent rproc_boot calls, interrupted models
an -ERESTARTSYS return. -/
inductive WaitOutcome where
  | completed
  | timeout (boot0ok boot1ok : Bool)
  | interrupted
deriving Repr, DecidableEq

/-- beaglelogic_stop, beaglelogic.c lines 899 to 954.  Only acts when
the mutex is held; when the state is RUNNING it sets the stop flag,
moves to REQUEST_STOP and waits; completion and an interrupted wait end
in INITIALIZED, a timeout power-cycles both PRUs and ends in INITIALIZED
on success or ERROR on a failed reboot.  Every path through the locked
branch releases the mutex. -/
def beaglelogic_stop (w : WaitOutcome) (d : BLDev) : BLDev :=
  if d.mutexLocked then
    let d1 :=
      if d.state = STATE_BL_RUNNING then
        let d2 := { beaglelogic_request_stop d with state := STATE_BL_REQUEST_STOP }
        match w with
        | .completed => { d2 with state := STATE_BL_INITIALIZED }
        | .timeout boot0ok boot1ok =>
          if boot0ok = false then { d2 with state := STATE_BL_ERROR }
          else if boot1ok = false then { d2 with state := STATE_BL_ERROR }
          else { d2 with state := STATE_BL_INITIALIZED }
        | .interrupted => { d2 with state := STATE_BL_INITIALIZED }
      else d
    { d1 with mutexLocked := false }
  else d

/-- beaglelogic_start, beaglelogic.c lines 859 to 889.  The function
opens with a blocking mutex_lock, so a call made while another session
holds the mutex does not return until that session ends: this is
modelled as the outcome none.  Once the lock is acquired the stop flag
is cleared, beaglelogic_write_configuration is called (it returns 0
unconditionally in the source, so its failure branch is dead), the read
cursor is reset to buffer 0, CMD_START is sent, and the device enters
RUNNING with lasterror cleared, keeping the mutex held. -/
def beaglelogic_start (d : BLDev) : Option (Int × BLDev) :=
  if d.mutexLocked then none
  else
    some (0, { d with mutexLocked := true, stopFlag := false, bufbeingread := 0,
                      state := STATE_BL_RUNNING, lasterror := 0 })

/-- beaglelogic_get_samplerate, beaglelogic.c lines 605 to 609. -/
def beaglelogic_get_samplerate (d : BLDev) : Nat := d.samplerate

/-- beaglelogic_set_samplerate, beaglelogic.c lines 621 to 637: rejects
a requested rate above coreclockfreq / 2 or below 1 with -EINVAL, fails
with -EBUSY when the trylock fails, and otherwise stores the realized
rate (coreclockfreq / 2) / ((coreclockfreq / 2) / rate) using integer
division. -/
def beaglelogic_set_samplerate (d : BLDev) (samplerate : Nat) : Int × BLDev :=
  if samplerate > d.coreclockfreq / 2 ∨ samplerate < 1 then (-22, d)
  else if d.mutexLocked then (-16, d)
  else
    (0, { d with samplerate :=
            (d.coreclockfreq / 2) / ((d.coreclockfreq / 2) / samplerate) })

/-- One past the largest uint32_t value. -/
def UINT32_LIMIT : Nat := 4294967296

/-- The kernel macro DIV_ROUND_UP, (((n) + (d) - 1) / (d)), on the
uint32_t operands it receives in beaglelogic_memalloc: the sum
n + d - 1 is computed in 32-bit unsigned arithmetic and wraps modulo
2^32 when bufsize is close to the type's maximum (such a bufsize is
reachable from user space through IOCTL_BL_SET_BUFFER_SIZE); the
division itself cannot wrap. -/
def DIV_ROUND_UP (n d : Nat) : Nat := ((n + d - 1) % UINT32_LIMIT) / d

/-- Success of the allocation primitives inside beaglelogic_memalloc:
kzallocOk for the devm_kzalloc of the descriptor array, dmaOk i and
physAddr i for the dma_alloc_coherent of buffer i. -/
structure AllocOracle where
  kzallocOk : Bool
  dmaOk : Nat → Bool
  physAddr : Nat → Nat

/-- beaglelogic_memalloc, beaglelogic.c lines 328 to 427.  Fails with
-EBUSY when the trylock fails (touching nothing); computes
cnt = max(DIV_ROUND_UP(bufsize, bufunitsize), 2) and fails with -ENOMEM
when cnt exceeds maxbufcount (touching nothing); then stores bufcount
:= cnt and allocates the descriptor array, so a devm_kzalloc failure
leaves buffers NULL with bufcount already set to cnt; a
dma_alloc_coherent failure frees every region allocated so far and
resets bufcount to 0 with buffers NULL; on success buffer i holds
physAddr i, size bufunitsize, state MAPPED, index i and next pointing
at buffer (i + 1) mod cnt. -/
def beaglelogic_memalloc (o : AllocOracle) (d : BLDev) (bufsize : Nat) :
    Int × BLDev :=
  if d.mutexLocked then (-16, d)
  else
    let cnt := max (DIV_ROUND_UP bufsize d.bufunitsize) 2
    if cnt > d.maxbufcount then (-12, d)
    else
      let d1 := { d with bufcount := cnt }
      if o.kzallocOk = false then (-12, { d1 with buffers := none })
      else if (List.range cnt).all o.dmaOk then
        (0, { d1 with buffers := some ((List.range cnt).map fun i =>
              { hasBuf := true, physAddr := o.physAddr i, size := d.bufunitsize,
                state := STATE_BL_BUF_MAPPED, index := i,
                next := (i + 1) % cnt }) })
      else
        (-12, { d1 with buffers := none, bufcount := 0 })

/-- The drop-detection bookkeeping, duplicated verbatim in
beaglelogic_f_read (lines 1058 to 1064) and the SEEK_CUR loop of
beaglelogic_f_llseek (lines 1234 to 1239): when the buffer at index i
is still MAPPED it is marked DROPPED and lasterror is set to 0x10000
bitwise-or the buffer's index field. -/
def markDrop (d : BLDev) (i : Nat) : BLDev :=
  let b := d.getBuf i
  if b.state = STATE_BL_BUF_MAPPED then
    { d.setBuf i { b with state := STATE_BL_BUF_DROPPED } with
        lasterror := 0x10000 ||| b.index }
  else d

/-- Result of the embedded beaglelogic_f_read: blockedStart models the
call suspended inside the blocking mutex_lock of the lazy
beaglelogic_start, waiting models the call suspended in
wait_event_interruptible until an interrupt unmaps the buffer, and ret
carries the returned value together with the device and reader after
the call. -/
inductive ReadResult where
  | blockedStart
  | waiting
  | ret (e : Int) (d : BLDev) (rd : Reader)
deriving Repr, DecidableEq

/-- The perform_copy tail of beaglelogic_f_read, lines 1052 to 1076:
copies min(remaining, sz) bytes (copyOk models copy_to_user success;
on failure -EFAULT is returned with the drop bookkeeping not yet done),
runs the drop detection, advances pos and remaining, and on exhaustion
moves the reader to the next buffer. -/
def performCopy (d : BLDev) (rd : Reader) (i : Nat) (sz : Nat)
    (copyOk : Bool) : ReadResult :=
  let count := min rd.remaining sz
  if copyOk = false then .ret (-14) d rd
  else
    let d1 := markDrop d i
    let rd1 : Reader := { rd with pos := rd.pos + count,
                                  remaining := rd.remaining - count }
    let rd2 : Reader :=
      if rd1.remaining = 0 then
        let nxt := (d1.getBuf i).next
        { buf := some nxt, pos := 0, remaining := (d1.getBuf nxt).size }
      else rd1
    .ret (Int.ofNat count) d1 rd2

/-- The readiness check of beaglelogic_f_read, lines 1044 to 1051: in
nonblocking mode a buffer that is not UNMAPPED yields -EAGAIN; in
blocking mode an already UNMAPPED buffer proceeds at once, otherwise
the call either is interrupted by a signal (-ERESTARTSYS) or stays
suspended until the interrupt path unmaps the buffer. -/
def readWait (d : BLDev) (rd : Reader) (i : Nat) (sz : Nat)
    (nonblock copyOk waitInterrupted : Bool) : ReadResult :=
  if nonblock then
    if (d.getBuf i).state ≠ STATE_BL_BUF_UNMAPPED then .ret (-11) d rd
    else performCopy d rd i sz copyOk
  else
    if (d.getBuf i).state = STATE_BL_BUF_UNMAPPED then performCopy d rd i sz copyOk
    else if waitInterrupted then .ret (-512) d rd
    else .waiting

/-- beaglelogic_f_read, beaglelogic.c lines 1013 to 1077: -EIO in the
ERROR state; a nonzero pos jumps straight to perform_copy; a NULL
reader buffer is first-time initialized to buffer 0 and the capture is
lazily started when not RUNNING (-ENOEXEC on a start failure); the EOF
test returns 0 exactly when the reader is back at buffer 0 and the
state is INITIALIZED; otherwise the readiness check and copy run. -/
def beaglelogic_f_read (d : BLDev) (rd : Reader) (sz : Nat)
    (nonblock copyOk waitInterrupted : Bool) : ReadResult :=
  if d.state = STATE_BL_ERROR then .ret (-5) d rd
  else if 0 < rd.pos then performCopy d rd (rd.buf.getD 0) sz copyOk
  else if rd.buf = none then
    let rd1 : Reader := { buf := some 0, pos := 0, remaining := (d.getBuf 0).size }
    if d.state ≠ STATE_BL_RUNNING then
      match beaglelogic_start d with
      | none => .blockedStart
      | some (e, d1) =>
        if e ≠ 0 then .ret (-8) d1 rd1
        else readWait d1 rd1 0 sz nonblock copyOk waitInterrupted
    else readWait d rd1 0 sz nonblock copyOk waitInterrupted
  else
    if rd.buf.getD 0 = 0 ∧ d.state = STATE_BL_INITIALIZED then .ret 0 d rd
    else readWait d rd (rd.buf.getD 0) sz nonblock copyOk waitInterrupted

def SEEK_SET : Nat := 0

def SEEK_CUR : Nat := 1

/-- The SEEK_CUR loop of beaglelogic_f_llseek, lines 1233 to 1252: while
the count left is positive, run the drop detection on the current
buffer, consume j = min(left, remaining) bytes, and on exhaustion move
to the next buffer.  The fuel argument bounds the iterations (each one
consumes at least a byte whenever remaining is positive); none models
the loop not terminating, which cannot happen for positive buffer
sizes. -/
def seekLoop (fuel : Nat) (d : BLDev) (rd : Reader) (i : Nat) :
    Option (BLDev × Reader) :=
  match fuel with
  | 0 => if i = 0 then some (d, rd) else none
  | fuel + 1 =>
    if i = 0 then some (d, rd)
    else
      let idx := rd.buf.getD 0
      let d1 := markDrop d idx
      let j := min i rd.remaining
      let rd1 : Reader := { rd with pos := rd.pos + j,
                                    remaining := rd.remaining - j }
      let rd2 : Reader :=
        if rd1.remaining = 0 then
          let nxt := (d1.getBuf idx).next
          { buf := some nxt, pos := 0, remaining := (d1.getBuf nxt).size }
        else rd1
      seekLoop fuel d1 rd2 (i - j)

/-- beaglelogic_f_llseek, beaglelogic.c lines 1223 to 1270: SEEK_CUR
runs the forward loop and returns the offset; SEEK_SET at offset 0
resets the reader, stops the device and returns 0; everything else is
-EINVAL.  Negative SEEK_CUR offsets skip the loop body and return the
offset, matching the while condition on a signed count. -/
def beaglelogic_f_llseek (w : WaitOutcome) (d : BLDev) (rd : Reader)
    (offset : Int) (whence : Nat) : Option (Int × BLDev × Reader) :=
  if whence = SEEK_CUR then
    match seekLoop offset.toNat d rd offset.toNat with
    | some (d1, rd1) => some (offset, d1, rd1)
    | none => none
  else if whence = SEEK_SET ∧ offset = 0 then
    some (0, beaglelogic_stop w d, ({ buf := none, pos := 0, remaining := 0 } : Reader))
  else some (-22, d, rd)

/-! Arithmetic helpers. -/

/-- Integer-divisor rounding is idempotent: dividing n by the quotient
n / k lands back on n / k after one more rounding pass. -/
theorem nat_div_div_div (n k : Nat) (hk1 : 1 ≤ k) (hkn : k ≤ n) :
    n / (n / (n / k)) = n / k := by
  have hq1 : 1 ≤ n / k := (Nat.one_le_div_iff (by omega)).2 hkn
  have hkq : k ≤ n / (n / k) := by
    rw [Nat.le_div_iff_mul_le (by omega)]
    have h1 : n / k * k ≤ n := Nat.div_mul_le_self n k
    have h2 : k * (n / k) = n / k * k := Nat.mul_comm _ _
    omega
  have hub : n / (n / (n / k)) ≤ n / k := Nat.div_le_div_left hkq (by omega)
  have hlb : n / k ≤ n / (n / (n / k)) := by
    have hpos : 0 < n / (n / k) := by omega
    rw [Nat.le_div_iff_mul_le hpos, Nat.mul_comm]
    exact Nat.div_mul_le_self n (n / k)
  omega

/-- Iterating the successor-mod-c map k times adds k modulo c. -/
theorem iterate_succ_mod (c : Nat) (hc : 0 < c) (g : Nat → Nat)
    (hg : ∀ j, j < c → g j = (j + 1) % c) :
    ∀ k i, i < c → g^[k] i = (i + k) % c := by
  intro k
  induction k with
  | zero =>
    intro i hi
    simp [Nat.mod_eq_of_lt hi]
  | succ m ih =>
    intro i hi
    rw [Function.iterate_succ_apply, hg i hi]
    have hlt : (i + 1) % c < c := Nat.mod_lt _ hc
    rw [ih _ hlt, Nat.mod_add_mod]
    congr 1
    omega

/-! Ring access lemmas. -/

theorem getBuf_setBuf_self (d : BLDev) (i : Nat) (b : LogicBuffer)
    (h : i < d.ring.length) : (d.setBuf i b).getBuf i = b := by
  simp only [BLDev.setBuf, BLDev.getBuf, BLDev.ring, Option.getD_some]
  exact getD_set_self _ _ _ _ h

theorem getBuf_setBuf_ne (d : BLDev) (i j : Nat) (b : LogicBuffer)
    (h : i ≠ j) : (d.setBuf i b).getBuf j = d.getBuf j := by
  simp only [BLDev.setBuf, BLDev.getBuf, BLDev.ring, Option.getD_some]
  exact getD_set_ne _ _ _ _ _ h

theorem unmap_next (b : LogicBuffer) :
    (beaglelogic_unmap_buffer b).next = b.next := rfl

theorem unmap_state (b : LogicBuffer) :
    (beaglelogic_unmap_buffer b).state = STATE_BL_BUF_UNMAPPED := rfl

theorem setBuf_triggerflags (d : BLDev) (i : Nat) (b : LogicBuffer) :
    (d.setBuf i b).triggerflags = d.triggerflags := rfl

theorem getBuf_withCursor (d : BLDev) (n i : Nat) :
    BLDev.getBuf { d with bufbeingread := n } i = d.getBuf i := rfl

/-! A baseline device configuration shared by the concrete instances
below: freshly initialized, 200 MHz core clock, 4 MiB buffer units,
firmware capacity 64, no buffers allocated yet. -/

def devBase : BLDev :=
  { buffers := none, bufcount := 0, bufbeingread := 0,
    bufunitsize := 4194304, maxbufcount := 64,
    samplerate := 100000000, coreclockfreq := 200000000,
    triggerflags := BL_TRIGGERFLAGS_ONESHOT, sampleunit := 1,
    state := STATE_BL_INITIALIZED, lasterror := 0,
    mutexLocked := false, stopFlag := false }

/-! Claim C2. -/

/-- A device in the DISABLED state receiving a capture-complete signal:
the handler leaves the device exactly as it was. -/
def devC2 : BLDev := { devBase with state := STATE_BL_DISABLED }

/-- A device stuck in the ERROR state, used to exercise the
unexpected-completion branch of the handler. -/
def devC2w : BLDev := { devBase with state := STATE_BL_ERROR }

/-- Claim C2, counterexample: a capture-complete signal received in the
DISABLED state is handled by the first branch of beaglelogic_serve_irq
(state at most ARMED), which treats it as the configuration
acknowledgement and does nothing; the device does not move to ERROR. -/
theorem serve_irq_disabled_cex :
    (beaglelogic_serve_irq .captureComplete devC2).state = STATE_BL_DISABLED
    ∧ (beaglelogic_serve_irq .captureComplete devC2).state ≠ STATE_BL_ERROR := by
  decide

/-- Claim C2, amended: a capture-complete signal received with the
device state at most ARMED (DISABLED, INITIALIZED, MEMALLOCD or ARMED)
is a no-op configuration acknowledgement; in RUNNING or REQUEST_STOP it
moves the state to INITIALIZED; only in a state above ARMED that is
neither RUNNING nor REQUEST_STOP (that is, ERROR) does it drive the
device to ERROR. -/
theorem serve_irq_complete_states (d : BLDev) :
    (d.state ≤ STATE_BL_ARMED → beaglelogic_serve_irq .captureComplete d = d)
    ∧ (d.state = STATE_BL_RUNNING ∨ d.state = STATE_BL_REQUEST_STOP →
        (beaglelogic_serve_irq .captureComplete d).state = STATE_BL_INITIALIZED)
    ∧ (STATE_BL_ARMED < d.state → d.state ≠ STATE_BL_RUNNING →
        d.state ≠ STATE_BL_REQUEST_STOP →
        (beaglelogic_serve_irq .captureComplete d).state = STATE_BL_ERROR) := by
  refine ⟨?_, ?_, ?_⟩
  · intro h
    simp [beaglelogic_serve_irq, h]
  · intro h
    rcases h with h | h <;>
      simp [beaglelogic_serve_irq, h, STATE_BL_ARMED, STATE_BL_RUNNING,
        STATE_BL_REQUEST_STOP, STATE_BL_INITIALIZED] <;>
      split <;> simp
  · intro h1 h2 h3
    have hle : ¬ d.state ≤ STATE_BL_ARMED := by omega
    simp [beaglelogic_serve_irq, hle, h2, h3]

/-- Claim C2, witness for the amended theorem: a completion signal in
the ERROR state keeps the device in ERROR through the violation
branch. -/
theorem serve_irq_complete_states_witness :
    (beaglelogic_serve_irq .captureComplete devC2w).state = STATE_BL_ERROR :=
  (serve_irq_complete_states devC2w).2.2 (by decide) (by decide) (by decide)

/-! Claim C3. -/

/-- Claim C3: stopping a RUNNING device with the session mutex held
terminates with the device in INITIALIZED or ERROR, never left in
REQUEST_STOP, and with the session mutex released, for every outcome of
the bounded wait (completion observed, timeout with successful or
failed forced recovery, or signal-interrupted wait). -/
theorem stop_terminates (d : BLDev) (w : WaitOutcome)
    (hs : d.state = STATE_BL_RUNNING) (hm : d.mutexLocked = true) :
    ((beaglelogic_stop w d).state = STATE_BL_INITIALIZED
      ∨ (beaglelogic_stop w d).state = STATE_BL_ERROR)
    ∧ (beaglelogic_stop w d).state ≠ STATE_BL_REQUEST_STOP
    ∧ (beaglelogic_stop w d).mutexLocked = false := by
  cases w with
  | completed =>
    simp [beaglelogic_stop, beaglelogic_request_stop, hs, hm,
      STATE_BL_INITIALIZED, STATE_BL_REQUEST_STOP]
  | timeout boot0ok boot1ok =>
    cases boot0ok <;> cases boot1ok <;>
      simp [beaglelogic_stop, beaglelogic_request_stop, hs, hm,
        STATE_BL_INITIALIZED, STATE_BL_REQUEST_STOP, STATE_BL_ERROR]
  | interrupted =>
    simp [beaglelogic_stop, beaglelogic_request_stop, hs, hm,
      STATE_BL_INITIALIZED, STATE_BL_REQUEST_STOP]

/-- A device in the middle of a capture session: RUNNING with the
session mutex held. -/
def devC3 : BLDev :=
  { devBase with state := STATE_BL_RUNNING, mutexLocked := true }

/-- Claim C3, witness: stopping the running device when the forced
recovery after a timeout fails on the second PRU reboot still releases
the mutex and lands in ERROR, one of the two permitted outcomes. -/
theorem stop_terminates_witness :
    ((beaglelogic_stop (.timeout true false) devC3).state = STATE_BL_INITIALIZED
      ∨ (beaglelogic_stop (.timeout true false) devC3).state = STATE_BL_ERROR)
    ∧ (beaglelogic_stop (.timeout true false) devC3).state ≠ STATE_BL_REQUEST_STOP
    ∧ (beaglelogic_stop (.timeout true false) devC3).mutexLocked = false :=
  stop_terminates devC3 (.timeout true false) rfl rfl

/-! Claim C7. -/

/-- A device whose session mutex is already held by an active capture
session. -/
def devC7 : BLDev :=
  { devBase with state := STATE_BL_RUNNING, mutexLocked := true }

/-- Claim C7, counterexample: beaglelogic_start called while the
session mutex is held does not return -EBUSY (it opens with a blocking
mutex_lock, modelled as the outcome none, and queues until the holder
releases the lock); there is no fail-fast Busy return. -/
theorem start_busy_cex :
    beaglelogic_start devC7 = none
    ∧ beaglelogic_start devC7 ≠ some ((-16 : Int), devC7) := by
  decide

/-- Claim C7, amended: beaglelogic_start acquires the session lock with
a blocking mutex_lock, so a start attempted while a session holds the
lock blocks (queues) until that session ends rather than failing fast
with Busy; once the lock is free the start succeeds, clearing the stop
flag and lasterror, resetting the read cursor and entering RUNNING with
the lock held. -/
theorem start_lock_behavior (d : BLDev) :
    (d.mutexLocked = true → beaglelogic_start d = none)
    ∧ (d.mutexLocked = false →
        beaglelogic_start d = some (0,
          { d with mutexLocked := true, stopFlag := false, bufbeingread := 0,
                   state := STATE_BL_RUNNING, lasterror := 0 })) := by
  constructor <;> intro h <;> simp [beaglelogic_start, h]

/-- Claim C7, witness for the amended theorem: at the concrete busy
device the call blocks. -/
theorem start_lock_behavior_witness : beaglelogic_start devC7 = none :=
  (start_lock_behavior devC7).1 rfl

/-! Claim C8. -/

/-- Claim C8: for a requested rate in [1, coreclockfreq / 2] on an idle
device, the stored rate becomes (F/2) / ((F/2) / r) with F the core
clock; setting the rate that get returns afterwards leaves the stored
rate unchanged (idempotence of the divisor rounding); any request
outside [1, F/2] is rejected with -EINVAL leaving the device
untouched. -/
theorem samplerate_realized (d : BLDev) (r : Nat)
    (h1 : 1 ≤ r) (h2 : r ≤ d.coreclockfreq / 2) (hm : d.mutexLocked = false) :
    ((beaglelogic_set_samplerate d r).2.samplerate
        = (d.coreclockfreq / 2) / ((d.coreclockfreq / 2) / r))
    ∧ (beaglelogic_set_samplerate (beaglelogic_set_samplerate d r).2
          (beaglelogic_get_samplerate (beaglelogic_set_samplerate d r).2)).2.samplerate
        = (beaglelogic_set_samplerate d r).2.samplerate
    ∧ (∀ s, s < 1 ∨ d.coreclockfreq / 2 < s →
        beaglelogic_set_samplerate d s = (-22, d)) := by
  have hc1 : ¬ (r > d.coreclockfreq / 2 ∨ r < 1) := by omega
  have hset : beaglelogic_set_samplerate d r
      = (0, { d with samplerate :=
          (d.coreclockfreq / 2) / ((d.coreclockfreq / 2) / r) }) := by
    unfold beaglelogic_set_samplerate
    rw [if_neg hc1, hm]
    simp
  refine ⟨by rw [hset], ?_, ?_⟩
  · have hnr1 : 1 ≤ d.coreclockfreq / 2 / r :=
      (Nat.one_le_div_iff (by omega)).2 h2
    have hq1 : 1 ≤ d.coreclockfreq / 2 / (d.coreclockfreq / 2 / r) :=
      (Nat.one_le_div_iff (by omega)).2 (Nat.div_le_self _ r)
    have hqn : d.coreclockfreq / 2 / (d.coreclockfreq / 2 / r)
        ≤ d.coreclockfreq / 2 := Nat.div_le_self _ _
    have hc2 : ¬ (d.coreclockfreq / 2 / (d.coreclockfreq / 2 / r)
        > d.coreclockfreq / 2
      ∨ d.coreclockfreq / 2 / (d.coreclockfreq / 2 / r) < 1) := by omega
    rw [hset]
    simp only [beaglelogic_get_samplerate, beaglelogic_set_samplerate, hm]
    rw [if_neg hc2]
    simp only [Bool.false_eq_true, if_false]
    exact nat_div_div_div (d.coreclockfreq / 2) (d.coreclockfreq / 2 / r)
      hnr1 (Nat.div_le_self _ r)
  · intro s hs
    have hc3 : s > d.coreclockfreq / 2 ∨ s < 1 := by omega
    unfold beaglelogic_set_samplerate
    rw [if_pos hc3]

/-- Claim C8, witness: requesting 44100 Hz on the baseline device
(100 MHz available after halving the 200 MHz core clock) realizes
100000000 / (100000000 / 44100) and the realized value is a fixed
point of the setter. -/
theorem samplerate_realized_witness :
    ((beaglelogic_set_samplerate devBase 44100).2.samplerate
        = (devBase.coreclockfreq / 2) / ((devBase.coreclockfreq / 2) / 44100))
    ∧ (beaglelogic_set_samplerate (beaglelogic_set_samplerate devBase 44100).2
          (beaglelogic_get_samplerate
            (beaglelogic_set_samplerate devBase 44100).2)).2.samplerate
        = (beaglelogic_set_samplerate devBase 44100).2.samplerate
    ∧ (∀ s, s < 1 ∨ devBase.coreclockfreq / 2 < s →
        beaglelogic_set_samplerate devBase s = (-22, devBase)) :=
  samplerate_realized devBase 44100 (by omega) (by decide) rfl

/-! Claim C1. -/

/-- First buffer of a two-buffer continuous-mode ring, freshly filled
(still MAPPED) and under the write cursor. -/
def bufC1a : LogicBuffer :=
  { hasBuf := true, physAddr := 4096, size := 16,
    state := STATE_BL_BUF_MAPPED, index := 0, next := 1 }

/-- Second buffer of the ring, already consumed on a previous lap and
therefore still UNMAPPED when the cursor comes back around. -/
def bufC1b : LogicBuffer :=
  { hasBuf := true, physAddr := 8192, size := 16,
    state := STATE_BL_BUF_UNMAPPED, index := 1, next := 0 }

/-- A running continuous-mode capture with the two-buffer ring and the
write cursor on buffer 0. -/
def devC1 : BLDev :=
  { devBase with
    buffers := some [bufC1a, bufC1b], bufcount := 2,
    bufbeingread := 0, bufunitsize := 16,
    triggerflags := BL_TRIGGERFLAGS_CONTINUOUS,
    state := STATE_BL_RUNNING, mutexLocked := true }

/-- Claim C1, counterexample: on a buffer-ready signal in continuous
mode the write cursor does advance to buffer 1, but that buffer's state
is not set to MAPPED: beaglelogic_map_buffer only verifies the buffer
and the state stays UNMAPPED. -/
theorem bufready_no_remap_cex :
    (beaglelogic_serve_irq .bufReady devC1).bufbeingread = 1
    ∧ ((beaglelogic_serve_irq .bufReady devC1).getBuf 1).state
        = STATE_BL_BUF_UNMAPPED
    ∧ ((beaglelogic_serve_irq .bufReady devC1).getBuf 1).state
        ≠ STATE_BL_BUF_MAPPED := by
  decide

/-- Claim C1, amended: on every buffer-ready signal the just-completed
buffer (under the write cursor) is set to UNMAPPED; unless the session
is oneshot and the next buffer has index 0 (the final buffer), the
write cursor advances to the next buffer, whose state is left unchanged
because the re-arm step (beaglelogic_map_buffer) only verifies the
buffer; in the final-oneshot case the cursor stays put. -/
theorem bufready_spec (d : BLDev)
    (hlen : d.ring.length = d.bufcount)
    (hi : d.bufbeingread < d.bufcount)
    (hne : (d.getBuf d.bufbeingread).next ≠ d.bufbeingread) :
    ((beaglelogic_serve_irq .bufReady d).getBuf d.bufbeingread).state
        = STATE_BL_BUF_UNMAPPED
    ∧ (d.triggerflags ≠ BL_TRIGGERFLAGS_ONESHOT
        ∨ (d.getBuf ((d.getBuf d.bufbeingread).next)).index ≠ 0 →
        (beaglelogic_serve_irq .bufReady d).bufbeingread
            = (d.getBuf d.bufbeingread).next
        ∧ ((beaglelogic_serve_irq .bufReady d).getBuf
              ((d.getBuf d.bufbeingread).next)).state
            = (d.getBuf ((d.getBuf d.bufbeingread).next)).state)
    ∧ (d.triggerflags = BL_TRIGGERFLAGS_ONESHOT
        ∧ (d.getBuf ((d.getBuf d.bufbeingread).next)).index = 0 →
        (beaglelogic_serve_irq .bufReady d).bufbeingread = d.bufbeingread) := by
  have hil : d.bufbeingread < d.ring.length := by omega
  have hself : (d.setBuf d.bufbeingread
      (beaglelogic_unmap_buffer (d.getBuf d.bufbeingread))).getBuf d.bufbeingread
      = beaglelogic_unmap_buffer (d.getBuf d.bufbeingread) :=
    getBuf_setBuf_self d _ _ hil
  have hother : (d.setBuf d.bufbeingread
      (beaglelogic_unmap_buffer (d.getBuf d.bufbeingread))).getBuf
        ((d.getBuf d.bufbeingread).next)
      = d.getBuf ((d.getBuf d.bufbeingread).next) :=
    getBuf_setBuf_ne d _ _ _ (fun h => hne h.symm)
  have hexp : beaglelogic_serve_irq .bufReady d
      = (if (d.setBuf d.bufbeingread
              (beaglelogic_unmap_buffer (d.getBuf d.bufbeingread))).triggerflags
            ≠ BL_TRIGGERFLAGS_ONESHOT
          ∨ ((d.setBuf d.bufbeingread
              (beaglelogic_unmap_buffer (d.getBuf d.bufbeingread))).getBuf
              (((d.setBuf d.bufbeingread
                (beaglelogic_unmap_buffer (d.getBuf d.bufbeingread))).getBuf
                  d.bufbeingread).next)).index ≠ 0
        then { d.setBuf d.bufbeingread
                (beaglelogic_unmap_buffer (d.getBuf d.bufbeingread)) with
               bufbeingread := ((d.setBuf d.bufbeingread
                (beaglelogic_unmap_buffer (d.getBuf d.bufbeingread))).getBuf
                  d.bufbeingread).next }
        else d.setBuf d.bufbeingread
              (beaglelogic_unmap_buffer (d.getBuf d.bufbeingread))) := rfl
  rw [hexp, hself, unmap_next, hother, setBuf_triggerflags]
  by_cases hcond : d.triggerflags ≠ BL_TRIGGERFLAGS_ONESHOT
      ∨ (d.getBuf ((d.getBuf d.bufbeingread).next)).index ≠ 0
  · rw [if_pos hcond]
    refine ⟨?_, fun _ => ⟨rfl, ?_⟩, fun hh => absurd hcond ?_⟩
    · rw [getBuf_withCursor, hself, unmap_state]
    · rw [getBuf_withCursor, hother]
    · push_neg
      exact hh
  · rw [if_neg hcond]
    push_neg at hcond
    refine ⟨?_, fun hh => ?_, fun _ => rfl⟩
    · rw [hself, unmap_state]
    · exfalso
      rcases hh with hh | hh
      · exact hh hcond.1
      · exact hh hcond.2

/-- Claim C1, witness for the amended theorem, instantiated at the
concrete two-buffer continuous-mode device. -/
theorem bufready_spec_witness :
    ((beaglelogic_serve_irq .bufReady devC1).getBuf devC1.bufbeingread).state
        = STATE_BL_BUF_UNMAPPED
    ∧ (devC1.triggerflags ≠ BL_TRIGGERFLAGS_ONESHOT
        ∨ (devC1.getBuf ((devC1.getBuf devC1.bufbeingread).next)).index ≠ 0 →
        (beaglelogic_serve_irq .bufReady devC1).bufbeingread
            = (devC1.getBuf devC1.bufbeingread).next
        ∧ ((beaglelogic_serve_irq .bufReady devC1).getBuf
              ((devC1.getBuf devC1.bufbeingread).next)).state
            = (devC1.getBuf ((devC1.getBuf devC1.bufbeingread).next)).state)
    ∧ (devC1.triggerflags = BL_TRIGGERFLAGS_ONESHOT
        ∧ (devC1.getBuf ((devC1.getBuf devC1.bufbeingread).next)).index = 0 →
        (beaglelogic_serve_irq .bufReady devC1).bufbeingread
            = devC1.bufbeingread) :=
  bufready_spec devC1 (by decide) (by decide) (by decide)

/-! Claims C4, C9 and C10 concern beaglelogic_memalloc.  The shared
lemma below computes the result of a fully successful allocation. -/

theorem memalloc_success_eq (o : AllocOracle) (d : BLDev) (bufsize : Nat)
    (hm : d.mutexLocked = false) (hk : o.kzallocOk = true)
    (hd : ∀ i, o.dmaOk i = true)
    (hcap : max (DIV_ROUND_UP bufsize d.bufunitsize) 2 ≤ d.maxbufcount) :
    beaglelogic_memalloc o d bufsize
      = (0, { d with
              bufcount := max (DIV_ROUND_UP bufsize d.bufunitsize) 2,
              buffers := some
                ((List.range (max (DIV_ROUND_UP bufsize d.bufunitsize) 2)).map
                  fun i =>
                  { hasBuf := true, physAddr := o.physAddr i,
                    size := d.bufunitsize, state := STATE_BL_BUF_MAPPED,
                    index := i,
                    next := (i + 1) %
                      (max (DIV_ROUND_UP bufsize d.bufunitsize) 2) }) }) := by
  have hall : (List.range (max (DIV_ROUND_UP bufsize d.bufunitsize) 2)).all
      o.dmaOk = true := by
    rw [List.all_eq_true]
    intro i _
    exact hd i
  have hcap2 : ¬ (max (DIV_ROUND_UP bufsize d.bufunitsize) 2 > d.maxbufcount) := by
    omega
  simp only [beaglelogic_memalloc, hm, hk, hall]
  simp [hcap2]

/-- Claim C4, amended: with the session mutex free and the underlying
allocators succeeding, beaglelogic_memalloc computes
count = max(DIV_ROUND_UP(bufsize, bufunitsize), 2) where DIV_ROUND_UP
is evaluated in the 32-bit unsigned arithmetic of the source, so the
rounded-up quotient wraps modulo 2^32 for bufsize near the top of the
uint32_t range instead of equalling the exact ceiling; when that count
exceeds the firmware-advertised maxbufcount the call fails with
-ENOMEM leaving the device untouched, and otherwise it succeeds with
exactly count buffers, each of size bufunitsize and initialized to the
MAPPED state. -/
theorem memalloc_spec (o : AllocOracle) (d : BLDev) (bufsize : Nat)
    (_hbs : bufsize < UINT32_LIMIT)
    (hm : d.mutexLocked = false) (hk : o.kzallocOk = true)
    (hd : ∀ i, o.dmaOk i = true) :
    (d.maxbufcount < max (DIV_ROUND_UP bufsize d.bufunitsize) 2 →
        beaglelogic_memalloc o d bufsize = (-12, d))
    ∧ (max (DIV_ROUND_UP bufsize d.bufunitsize) 2 ≤ d.maxbufcount →
        (beaglelogic_memalloc o d bufsize).1 = 0
        ∧ (beaglelogic_memalloc o d bufsize).2.bufcount
            = max (DIV_ROUND_UP bufsize d.bufunitsize) 2
        ∧ ∃ l, (beaglelogic_memalloc o d bufsize).2.buffers = some l
            ∧ l.length = max (DIV_ROUND_UP bufsize d.bufunitsize) 2
            ∧ ∀ b ∈ l, b.state = STATE_BL_BUF_MAPPED
                ∧ b.size = d.bufunitsize) := by
  constructor
  · intro hcap
    simp only [beaglelogic_memalloc, hm]
    simp only [Bool.false_eq_true, if_false]
    rw [if_pos hcap]
  · intro hcap
    rw [memalloc_success_eq o d bufsize hm hk hd hcap]
    refine ⟨rfl, rfl, ?_⟩
    refine ⟨_, rfl, by simp, ?_⟩
    intro b hb
    rcases List.mem_map.1 hb with ⟨i, _, rfl⟩
    exact ⟨rfl, rfl⟩

/-- An allocator in which every primitive allocation succeeds, with
page-aligned distinct physical addresses. -/
def oracleOk : AllocOracle :=
  { kzallocOk := true, dmaOk := fun _ => true,
    physAddr := fun i => 4096 * (i + 1) }

/-- Claim C4, counterexample: at bufsize = 0xFFFFFFFF with the default
4 MiB unit, the exact ceiling count max(ceil(B/U), 2) = 1024 exceeds
the advertised capacity 64, so the claim demands a ResourceExhausted
failure that allocates nothing; but the source computes
bufsize + bufunitsize - 1 in uint32_t, which wraps to 4194302, giving
cnt = max(0, 2) = 2, and the call succeeds, allocating 2 buffers. -/
theorem memalloc_wrap_cex :
    max ((4294967295 + devBase.bufunitsize - 1) / devBase.bufunitsize) 2 = 1024
    ∧ devBase.maxbufcount < 1024
    ∧ (beaglelogic_memalloc oracleOk devBase 4294967295).1 = 0
    ∧ (beaglelogic_memalloc oracleOk devBase 4294967295).2.bufcount = 2 := by
  decide

/-- Claim C4, witness: allocating 8 MiB in 4 MiB units on the baseline
device yields exactly max(2, 2) = 2 MAPPED buffers of 4 MiB each. -/
theorem memalloc_spec_witness :
    (beaglelogic_memalloc oracleOk devBase 8388608).1 = 0
    ∧ (beaglelogic_memalloc oracleOk devBase 8388608).2.bufcount
        = max (DIV_ROUND_UP 8388608 devBase.bufunitsize) 2
    ∧ ∃ l, (beaglelogic_memalloc oracleOk devBase 8388608).2.buffers = some l
        ∧ l.length = max (DIV_ROUND_UP 8388608 devBase.bufunitsize) 2
        ∧ ∀ b ∈ l, b.state = STATE_BL_BUF_MAPPED
            ∧ b.size = devBase.bufunitsize :=
  (memalloc_spec oracleOk devBase 8388608 (by decide) rfl rfl
    (fun _ => rfl)).2 (by decide)

/-- Claim C9: after a successful allocation, the ring has at least two
buffers, following the next links exactly bufcount times from any
buffer index returns to that index, and the last buffer's next link is
the first buffer. -/
theorem ring_circular (o : AllocOracle) (d : BLDev) (bufsize : Nat)
    (_hbs : bufsize < UINT32_LIMIT)
    (hm : d.mutexLocked = false) (hk : o.kzallocOk = true)
    (hd : ∀ i, o.dmaOk i = true)
    (hcap : max (DIV_ROUND_UP bufsize d.bufunitsize) 2 ≤ d.maxbufcount) :
    2 ≤ (beaglelogic_memalloc o d bufsize).2.bufcount
    ∧ (∀ i, i < (beaglelogic_memalloc o d bufsize).2.bufcount →
        (fun j => ((beaglelogic_memalloc o d bufsize).2.getBuf j).next)^[
          (beaglelogic_memalloc o d bufsize).2.bufcount] i = i)
    ∧ ((beaglelogic_memalloc o d bufsize).2.getBuf
        ((beaglelogic_memalloc o d bufsize).2.bufcount - 1)).next = 0 := by
  have heq := memalloc_success_eq o d bufsize hm hk hd hcap
  set D := (beaglelogic_memalloc o d bufsize).2 with hD
  have hDlit : D = { d with
      bufcount := max (DIV_ROUND_UP bufsize d.bufunitsize) 2,
      buffers := some
        ((List.range (max (DIV_ROUND_UP bufsize d.bufunitsize) 2)).map
          fun i =>
          { hasBuf := true, physAddr := o.physAddr i,
            size := d.bufunitsize, state := STATE_BL_BUF_MAPPED,
            index := i,
            next := (i + 1) %
              (max (DIV_ROUND_UP bufsize d.bufunitsize) 2) }) } := by
    rw [hD, heq]
  have hbc : D.bufcount = max (DIV_ROUND_UP bufsize d.bufunitsize) 2 := by
    rw [hDlit]
  have hgetD : ∀ j, j < max (DIV_ROUND_UP bufsize d.bufunitsize) 2 →
      D.getBuf j
        = { hasBuf := true, physAddr := o.physAddr j, size := d.bufunitsize,
            state := STATE_BL_BUF_MAPPED, index := j,
            next := (j + 1) % (max (DIV_ROUND_UP bufsize d.bufunitsize) 2) } := by
    intro j hj
    rw [hDlit]
    simp only [BLDev.getBuf, BLDev.ring, Option.getD_some]
    exact getD_map_range _ _ _ hj _
  have hg : ∀ j, j < max (DIV_ROUND_UP bufsize d.bufunitsize) 2 →
      (fun j => (D.getBuf j).next) j
        = (j + 1) % (max (DIV_ROUND_UP bufsize d.bufunitsize) 2) := by
    intro j hj
    show (D.getBuf j).next = (j + 1) % (max (DIV_ROUND_UP bufsize d.bufunitsize) 2)
    rw [hgetD j hj]
  refine ⟨by omega, ?_, ?_⟩
  · intro i hi
    rw [hbc] at hi
    rw [hbc]
    have hit := iterate_succ_mod (max (DIV_ROUND_UP bufsize d.bufunitsize) 2)
      (by omega) _ hg (max (DIV_ROUND_UP bufsize d.bufunitsize) 2) i hi
    rw [hit, Nat.add_mod_right]
    exact Nat.mod_eq_of_lt hi
  · have h2 : (2 : Nat) ≤ max (DIV_ROUND_UP bufsize d.bufunitsize) 2 :=
      le_max_right _ _
    rw [hbc]
    rw [hgetD (max (DIV_ROUND_UP bufsize d.bufunitsize) 2 - 1) (by omega)]
    have hsu : max (DIV_ROUND_UP bufsize d.bufunitsize) 2 - 1 + 1
        = max (DIV_ROUND_UP bufsize d.bufunitsize) 2 := by omega
    show (max (DIV_ROUND_UP bufsize d.bufunitsize) 2 - 1 + 1) %
        (max (DIV_ROUND_UP bufsize d.bufunitsize) 2) = 0
    rw [hsu, Nat.mod_self]

/-- Claim C9, witness: the two-buffer ring allocated on the baseline
device is circular. -/
theorem ring_circular_witness :
    2 ≤ (beaglelogic_memalloc oracleOk devBase 8388608).2.bufcount
    ∧ (∀ i, i < (beaglelogic_memalloc oracleOk devBase 8388608).2.bufcount →
        (fun j => ((beaglelogic_memalloc oracleOk devBase 8388608).2.getBuf j).next)^[
          (beaglelogic_memalloc oracleOk devBase 8388608).2.bufcount] i = i)
    ∧ ((beaglelogic_memalloc oracleOk devBase 8388608).2.getBuf
        ((beaglelogic_memalloc oracleOk devBase 8388608).2.bufcount - 1)).next = 0 :=
  ring_circular oracleOk devBase 8388608 (by decide) rfl rfl (fun _ => rfl)
    (by decide)

/-! Claim C10. -/

/-- An allocator whose descriptor-array allocation (devm_kzalloc)
fails. -/
def oC10 : AllocOracle :=
  { kzallocOk := false, dmaOk := fun _ => true,
    physAddr := fun i => 4096 * (i + 1) }

/-- Claim C10, counterexample: when devm_kzalloc fails, the call fails
with -ENOMEM but leaves bufcount = 2 (the count computed before the
allocation) rather than 0, because the source stores bufcount before
checking the allocation and the failnomem exit does not reset it; the
bookkeeping is not left in the empty state. -/
theorem memalloc_kzalloc_cex :
    (beaglelogic_memalloc oC10 devBase 8388608).1 = -12
    ∧ (beaglelogic_memalloc oC10 devBase 8388608).2.buffers = none
    ∧ (beaglelogic_memalloc oC10 devBase 8388608).2.bufcount = 2
    ∧ (beaglelogic_memalloc oC10 devBase 8388608).2.bufcount ≠ 0 := by
  decide

/-- Claim C10, amended: characterization of every failing path of
beaglelogic_memalloc.  A busy device or a count above the advertised
capacity fails leaving the device untouched; a descriptor-array
(devm_kzalloc) failure leaves buffers NULL but bufcount already set to
the computed count; only a DMA-region allocation failure performs the
full cleanup, freeing every region allocated before the failure and
resetting bufcount to 0 with buffers NULL. -/
theorem memalloc_failure_paths (o : AllocOracle) (d : BLDev) (bufsize : Nat)
    (_hbs : bufsize < UINT32_LIMIT) :
    (d.mutexLocked = true → beaglelogic_memalloc o d bufsize = (-16, d))
    ∧ (d.mutexLocked = false →
        d.maxbufcount < max (DIV_ROUND_UP bufsize d.bufunitsize) 2 →
        beaglelogic_memalloc o d bufsize = (-12, d))
    ∧ (d.mutexLocked = false →
        max (DIV_ROUND_UP bufsize d.bufunitsize) 2 ≤ d.maxbufcount →
        o.kzallocOk = false →
        beaglelogic_memalloc o d bufsize
          = (-12, { d with
                    bufcount := max (DIV_ROUND_UP bufsize d.bufunitsize) 2,
                    buffers := none }))
    ∧ (d.mutexLocked = false →
        max (DIV_ROUND_UP bufsize d.bufunitsize) 2 ≤ d.maxbufcount →
        o.kzallocOk = true →
        (List.range (max (DIV_ROUND_UP bufsize d.bufunitsize) 2)).all o.dmaOk
          = false →
        beaglelogic_memalloc o d bufsize
          = (-12, { d with bufcount := 0, buffers := none })) := by
  refine ⟨?_, ?_, ?_, ?_⟩
  · intro hm
    simp [beaglelogic_memalloc, hm]
  · intro hm hcap
    simp only [beaglelogic_memalloc, hm]
    simp only [Bool.false_eq_true, if_false]
    rw [if_pos hcap]
  · intro hm hcap hk
    have hcap2 : ¬ (max (DIV_ROUND_UP bufsize d.bufunitsize) 2 > d.maxbufcount) := by
      omega
    simp only [beaglelogic_memalloc, hm, hk]
    simp [hcap2]
  · intro hm hcap hk hdma
    have hcap2 : ¬ (max (DIV_ROUND_UP bufsize d.bufunitsize) 2 > d.maxbufcount) := by
      omega
    simp only [beaglelogic_memalloc, hm, hk, hdma]
    simp [hcap2]

/-- Claim C10, witness for the amended theorem: the devm_kzalloc
failure path at the concrete input, exhibiting the stale bufcount. -/
theorem memalloc_failure_paths_witness :
    beaglelogic_memalloc oC10 devBase 8388608
      = (-12, { devBase with
                bufcount := max (DIV_ROUND_UP 8388608 devBase.bufunitsize) 2,
                buffers := none }) :=
  (memalloc_failure_paths oC10 devBase 8388608 (by decide)).2.2.1 rfl
    (by decide) rfl

/-! Claims C5 and C6 concern the consumer read and seek paths.  The
lemmas below isolate the perform_copy tail and the drop bookkeeping. -/

theorem getBuf_withLasterror (d : BLDev) (e i : Nat) :
    BLDev.getBuf { d with lasterror := e } i = d.getBuf i := rfl

theorem markDrop_state (d : BLDev) (i : Nat) (hil : i < d.ring.length)
    (hst : (d.getBuf i).state = STATE_BL_BUF_MAPPED) :
    ((markDrop d i).getBuf i).state = STATE_BL_BUF_DROPPED := by
  simp only [markDrop]
  rw [if_pos hst, getBuf_withLasterror, getBuf_setBuf_self d i _ hil]

theorem markDrop_lasterror (d : BLDev) (i : Nat)
    (hst : (d.getBuf i).state = STATE_BL_BUF_MAPPED) :
    (markDrop d i).lasterror = 0x10000 ||| (d.getBuf i).index := by
  simp only [markDrop]
  rw [if_pos hst]

theorem performCopy_true_eq (d : BLDev) (rd : Reader) (i sz : Nat) :
    ∃ rd2, performCopy d rd i sz true
      = .ret (Int.ofNat (min rd.remaining sz)) (markDrop d i) rd2 :=
  ⟨_, rfl⟩

theorem performCopy_ne_ret_zero (d : BLDev) (rd : Reader) (i sz : Nat)
    (copyOk : Bool) (hrem : 1 ≤ rd.remaining) (hsz : 1 ≤ sz) :
    ∀ d1 rd1, performCopy d rd i sz copyOk ≠ .ret 0 d1 rd1 := by
  intro d1 rd1 h
  by_cases hc : copyOk = false
  · rw [performCopy] at h
    rw [if_pos hc] at h
    simp at h
  · have hc2 : copyOk = true := by
      cases copyOk
      · exact absurd rfl hc
      · rfl
    subst hc2
    obtain ⟨rd2, h2⟩ := performCopy_true_eq d rd i sz
    rw [h2] at h
    rw [ReadResult.ret.injEq] at h
    have h0 : Int.ofNat (min rd.remaining sz) = 0 := h.1
    simp at h0
    omega

theorem readWait_ne_ret_zero (d : BLDev) (rd : Reader) (i sz : Nat)
    (nonblock copyOk waitInterrupted : Bool)
    (hrem : 1 ≤ rd.remaining) (hsz : 1 ≤ sz) :
    ∀ d1 rd1, readWait d rd i sz nonblock copyOk waitInterrupted
      ≠ .ret 0 d1 rd1 := by
  intro d1 rd1 h
  rw [readWait] at h
  by_cases hnb : nonblock = true
  · rw [if_pos hnb] at h
    by_cases hu : (d.getBuf i).state ≠ STATE_BL_BUF_UNMAPPED
    · rw [if_pos hu] at h
      simp at h
    · rw [if_neg hu] at h
      exact performCopy_ne_ret_zero d rd i sz copyOk hrem hsz d1 rd1 h
  · rw [if_neg hnb] at h
    by_cases hu : (d.getBuf i).state = STATE_BL_BUF_UNMAPPED
    · rw [if_pos hu] at h
      exact performCopy_ne_ret_zero d rd i sz copyOk hrem hsz d1 rd1 h
    · rw [if_neg hu] at h
      by_cases hw : waitInterrupted = true
      · rw [if_pos hw] at h
        simp at h
      · rw [if_neg hw] at h
        simp at h

theorem int_toNat_ofNat (n : Nat) : (Int.ofNat n).toNat = n := rfl

theorem seekLoop_zero (fuel : Nat) (d : BLDev) (rd : Reader) :
    seekLoop fuel d rd 0 = some (d, rd) := by
  cases fuel <;> rfl

theorem seekLoop_one (d : BLDev) (rd : Reader) (m : Nat)
    (hrem : m + 1 ≤ rd.remaining) :
    ∃ rd2, seekLoop (m + 1) d rd (m + 1)
      = some (markDrop d (rd.buf.getD 0), rd2) := by
  have hj : min (m + 1) rd.remaining = m + 1 := by omega
  rw [seekLoop]
  rw [if_neg (by omega : ¬ (m + 1 = 0))]
  simp only [hj, Nat.sub_self]
  exact ⟨_, seekLoop_zero m _ _⟩

/-- Claim C5: for an initialized reader (non-NULL current buffer, at
least one byte left in it, as every reachable reader state has) and a
positive request size, the read returns 0 bytes exactly when the
reader's cursor is back on ring buffer 0 with intra-buffer position 0
and the device state is INITIALIZED. -/
theorem read_eof_iff (d : BLDev) (rd : Reader) (i sz : Nat)
    (nonblock copyOk waitInterrupted : Bool)
    (hbuf : rd.buf = some i) (hsz : 1 ≤ sz) (hrem : 1 ≤ rd.remaining) :
    (∃ d1 rd1, beaglelogic_f_read d rd sz nonblock copyOk waitInterrupted
        = .ret 0 d1 rd1)
    ↔ rd.pos = 0 ∧ i = 0 ∧ d.state = STATE_BL_INITIALIZED := by
  constructor
  · rintro ⟨d1, rd1, h⟩
    rw [beaglelogic_f_read] at h
    by_cases herr : d.state = STATE_BL_ERROR
    · rw [if_pos herr] at h
      simp at h
    rw [if_neg herr] at h
    by_cases hpos : 0 < rd.pos
    · rw [if_pos hpos] at h
      exact absurd h (performCopy_ne_ret_zero d rd _ sz copyOk hrem hsz d1 rd1)
    rw [if_neg hpos] at h
    rw [if_neg (by simp [hbuf])] at h
    by_cases hcond : rd.buf.getD 0 = 0 ∧ d.state = STATE_BL_INITIALIZED
    · rw [hbuf, Option.getD_some] at hcond
      exact ⟨by omega, hcond⟩
    · rw [if_neg hcond] at h
      exact absurd h (readWait_ne_ret_zero d rd _ sz nonblock copyOk
        waitInterrupted hrem hsz d1 rd1)
  · rintro ⟨hpos, hi, hst⟩
    refine ⟨d, rd, ?_⟩
    rw [beaglelogic_f_read]
    rw [if_neg (by rw [hst]; decide), if_neg (by omega),
      if_neg (by simp [hbuf]),
      if_pos (by rw [hbuf, Option.getD_some]; exact ⟨hi, hst⟩)]

/-- A freshly completed oneshot session: two buffers, both filled and
consumer-ready, device back in INITIALIZED. -/
def devC5 : BLDev :=
  { devBase with
    buffers := some
      [{ hasBuf := true, physAddr := 4096, size := 4,
         state := STATE_BL_BUF_UNMAPPED, index := 0, next := 1 },
       { hasBuf := true, physAddr := 8192, size := 4,
         state := STATE_BL_BUF_UNMAPPED, index := 1, next := 0 }],
    bufcount := 2, bufunitsize := 4, state := STATE_BL_INITIALIZED }

/-- A reader that has consumed the whole ring and wrapped back to
buffer 0 at position 0. -/
def rdC5 : Reader := { buf := some 0, pos := 0, remaining := 4 }

/-- Claim C5, witness: on the completed oneshot session the wrapped
reader observes end of file. -/
theorem read_eof_iff_witness :
    (∃ d1 rd1, beaglelogic_f_read devC5 rdC5 1 false true false
        = .ret 0 d1 rd1)
    ↔ rdC5.pos = 0 ∧ 0 = 0 ∧ devC5.state = STATE_BL_INITIALIZED :=
  read_eof_iff devC5 rdC5 0 1 false true false rfl (by decide) (by decide)

/-- Claim C6: a read entered mid-buffer (position > 0) that observes
its current buffer still MAPPED marks that buffer DROPPED, records
lasterror = 0x10000 OR the buffer's index, and still returns the copied
byte count normally; a forward relative seek of o bytes (1 ≤ o ≤ bytes
remaining in the current buffer) observing the same stale buffer does
the same bookkeeping and returns the offset normally. -/
theorem overrun_drop (d : BLDev) (rd : Reader) (i sz : Nat)
    (nonblock waitInterrupted : Bool) (w : WaitOutcome)
    (hbuf : rd.buf = some i) (hil : i < d.ring.length)
    (hst : (d.getBuf i).state = STATE_BL_BUF_MAPPED) :
    (0 < rd.pos → d.state ≠ STATE_BL_ERROR →
      ∃ d1 rd1, beaglelogic_f_read d rd sz nonblock true waitInterrupted
          = .ret (Int.ofNat (min rd.remaining sz)) d1 rd1
        ∧ (d1.getBuf i).state = STATE_BL_BUF_DROPPED
        ∧ d1.lasterror = 0x10000 ||| (d.getBuf i).index)
    ∧ (∀ o : Nat, 1 ≤ o → o ≤ rd.remaining →
      ∃ d1 rd1, beaglelogic_f_llseek w d rd (Int.ofNat o) SEEK_CUR
          = some (Int.ofNat o, d1, rd1)
        ∧ (d1.getBuf i).state = STATE_BL_BUF_DROPPED
        ∧ d1.lasterror = 0x10000 ||| (d.getBuf i).index) := by
  constructor
  · intro hpos herr
    have h1 : beaglelogic_f_read d rd sz nonblock true waitInterrupted
        = performCopy d rd i sz true := by
      rw [beaglelogic_f_read, if_neg herr, if_pos hpos, hbuf, Option.getD_some]
    obtain ⟨rd2, h2⟩ := performCopy_true_eq d rd i sz
    exact ⟨markDrop d i, rd2, by rw [h1, h2],
      markDrop_state d i hil hst, markDrop_lasterror d i hst⟩
  · intro o ho1 ho2
    obtain ⟨m, rfl⟩ : ∃ m, o = m + 1 := ⟨o - 1, by omega⟩
    obtain ⟨rd2, h2⟩ := seekLoop_one d rd m ho2
    rw [hbuf, Option.getD_some] at h2
    refine ⟨markDrop d i, rd2, ?_,
      markDrop_state d i hil hst, markDrop_lasterror d i hst⟩
    rw [beaglelogic_f_llseek, if_pos rfl, int_toNat_ofNat, h2]

/-- A running continuous capture that has lapped the reader: buffer 0
is back under the write cursor (MAPPED) while the reader is still in
the middle of it. -/
def devC6 : BLDev :=
  { devBase with
    buffers := some
      [{ hasBuf := true, physAddr := 4096, size := 4,
         state := STATE_BL_BUF_MAPPED, index := 0, next := 1 },
       { hasBuf := true, physAddr := 8192, size := 4,
         state := STATE_BL_BUF_UNMAPPED, index := 1, next := 0 }],
    bufcount := 2, bufunitsize := 4,
    triggerflags := BL_TRIGGERFLAGS_CONTINUOUS,
    state := STATE_BL_RUNNING, mutexLocked := true }

/-- A reader one byte into the lapped buffer with three bytes left. -/
def rdC6 : Reader := { buf := some 0, pos := 1, remaining := 3 }

/-- Claim C6, witness: both the mid-buffer read and the two-byte
forward seek on the lapped device drop buffer 0, record
0x10000 OR 0, and complete normally. -/
theorem overrun_drop_witness :
    (∃ d1 rd1, beaglelogic_f_read devC6 rdC6 2 false true false
        = .ret (Int.ofNat (min rdC6.remaining 2)) d1 rd1
      ∧ (d1.getBuf 0).state = STATE_BL_BUF_DROPPED
      ∧ d1.lasterror = 0x10000 ||| (devC6.getBuf 0).index)
    ∧ (∃ d1 rd1, beaglelogic_f_llseek .completed devC6 rdC6 (Int.ofNat 2) SEEK_CUR
        = some (Int.ofNat 2, d1, rd1)
      ∧ (d1.getBuf 0).state = STATE_BL_BUF_DROPPED
      ∧ d1.lasterror = 0x10000 ||| (devC6.getBuf 0).index) :=
  ⟨(overrun_drop devC6 rdC6 0 2 false false .completed rfl (by decide)
      (by decide)).1 (by decide) (by decide),
   (overrun_drop devC6 rdC6 0 2 false false .completed rfl (by decide)
      (by decide)).2 2 (by omega) (by decide)⟩

end BeagleLogic
